import Mathlib

/-!
Verification of the TradingAgents-CN backend against its specification.

The development shallowly embeds the parts of the code base that the checked
properties speak about:

* `tradingagents/graph/conditional_logic.py` — the investment-debate router;
* `tradingagents/dataflows/manager.py` — the provider orchestrator with its
  priority fallback loops and the write-through kline persistence;
* `app/routers/analysis.py` — the batch-analysis submission endpoint;
* `tradingagents/agents/summary/summary_agent.py` — the structured summary node;
* `tradingagents/agents/analysts/dynamic_analyst.py` — the progress-map builder;
* `tradingagents/agents/stage_2/bull_researcher.py` — the debate append logic;
* `tradingagents/tools/mcp/loader.py` — the MCP server restart budget;
* `app/services/data_sources/akshare_adapter.py` — numeric coercion and the
  per-symbol batch loop.

Machine integers and floats are modelled as `Nat` / `Int` / `ℚ`; Python `dict`s
are modelled as association lists with last-write-wins lookup, or as total
functions with a default; exceptions are modelled with explicit outcome types.
External library calls (the YAML config store, `json.loads`, Python's string
to float parser, the LLM client) enter as function parameters.
-/

namespace Spec2Proof

/-! ## String helpers

Python's `in` (substring test), `startswith` and `strip` on `str`. -/

/-- Substring test: Python's `sub in s`. -/
def str_contains (s sub : String) : Bool :=
  decide (sub.data <:+: s.data)

/-- Characters up to (excluding) the first occurrence of `c`. -/
def take_until (c : Char) : List Char → List Char
  | [] => []
  | x :: xs => if x = c then [] else x :: take_until c xs

/-- Python's `s.split('.')[0]`: the segment before the first dot. -/
def py_split_dot_head (s : String) : String :=
  ⟨take_until '.' s.data⟩

/-- Python's `s.replace(c, '')` for a one-character pattern: drop every
occurrence of the character. -/
def remove_char (c : Char) (s : String) : String :=
  ⟨s.data.filter (fun x => x ≠ c)⟩

/-- Python's `s.startswith(pre)`. -/
def str_startswith (s pre : String) : Bool :=
  pre.data.isPrefixOf s.data

/-! ## C1 — `ConditionalLogic.should_continue_debate`
(`tradingagents/graph/conditional_logic.py`) -/

/-- One debate round of `investment_debate_state["rounds"]`: a Python dict
that may carry a `bull` and/or a `bear` utterance. -/
structure DebateRound where
  bull : Option String := none
  bear : Option String := none
deriving Repr, DecidableEq

/-- The `investment_debate_state` dictionary threaded through stage 2. -/
structure InvestmentDebateState where
  history : String := ""
  bull_history : String := ""
  bear_history : String := ""
  current_response : String := ""
  count : Nat := 0
  rounds : List DebateRound := []
  bull_report_content : String := ""
  bear_report_content : String := ""
  current_round_index : Nat := 0
  max_rounds : Nat := 2
deriving Repr, DecidableEq

/-- Python: `latest_speaker.startswith("Bull") or "【多头" in latest_speaker`. -/
def matches_bull (latest_speaker : String) : Bool :=
  str_startswith latest_speaker "Bull" || str_contains latest_speaker "【多头"

/-- Python: `latest_speaker.startswith("Bear") or "【空头" in latest_speaker`. -/
def matches_bear (latest_speaker : String) : Bool :=
  str_startswith latest_speaker "Bear" || str_contains latest_speaker "【空头"

/-- `ConditionalLogic.should_continue_debate`, with the constructor argument
`max_debate_rounds` passed explicitly. -/
def should_continue_debate (max_debate_rounds : Nat)
    (state : InvestmentDebateState) : String :=
  let current_count := state.count
  let max_count := 2 * (max_debate_rounds + 1)
  let latest_speaker := state.current_response
  if current_count ≥ max_count then
    "Research Manager"
  else
    if matches_bull latest_speaker then
      "Bear Researcher"
    else if matches_bear latest_speaker then
      "Bull Researcher"
    else
      "Bull Researcher"

/-! ## Provider orchestrator (`tradingagents/dataflows/manager.py`)

One call to an adapter either raises (`exc`) or returns a value; Python
truthiness of the returned value decides whether the fallback loop stops. -/

/-- Outcome of one adapter call for fixed arguments: an exception or a value. -/
inductive Fetch (α : Type) where
  | exc : Fetch α
  | ok : α → Fetch α
deriving Repr, DecidableEq

/-- One adapter as seen by a single orchestrator operation: its `name` and the
outcome it would produce for the call's arguments. -/
structure AdapterCall (α : Type) where
  name : String
  result : Fetch α
deriving Repr, DecidableEq

/-- An adapter the loop skips: it raised, or returned a falsy value. -/
def is_skipped {α : Type} (truthy : α → Bool) (a : AdapterCall α) : Bool :=
  match a.result with
  | .exc => true
  | .ok v => !truthy v

/-- The shared shape of the orchestrator's fallback loops: try adapters in
order, return the first truthy result together with the adapter's name,
swallow exceptions, give `none` when exhausted. -/
def fallback_first {α : Type} (truthy : α → Bool) :
    List (AdapterCall α) → Option (α × String)
  | [] => none
  | a :: rest =>
    match a.result with
    | .exc => fallback_first truthy rest
    | .ok v => if truthy v then some (v, a.name) else fallback_first truthy rest

/-! ### Data model of the quote store (`stock_daily_quotes`) -/

/-- One kline bar as produced by an adapter (`{time, open, high, low, close,
volume, amount}`); absent fields are `none`. `open` is a Lean keyword, hence
`open_price`. -/
structure KlineItem where
  time : String := ""
  open_price : Option ℚ := none
  high : Option ℚ := none
  low : Option ℚ := none
  close : Option ℚ := none
  volume : Option ℚ := none
  amount : Option ℚ := none
deriving Repr, DecidableEq

/-- One document of the `stock_daily_quotes` collection. -/
structure QuoteRow where
  symbol : String
  trade_date : String
  data_source : String
  period : String
  market : String
  open_price : Option ℚ
  high : Option ℚ
  low : Option ℚ
  close : Option ℚ
  volume : Option ℚ
  amount : Option ℚ
  updated_at : Nat
deriving Repr, DecidableEq

/-- The unique-index four-tuple of a quote row. -/
def QuoteRow.key (r : QuoteRow) : String × String × String × String :=
  (r.symbol, r.trade_date, r.data_source, r.period)

/-- Python: `str(item.get('time', '')).replace('-', '').replace('/', '')`. -/
def normalize_trade_date (t : String) : String :=
  remove_char '/' (remove_char '-' t)

/-- The `$set` document built for one bar in `_save_kline_to_db`. -/
def kline_doc (now : Nat) (symbol source period : String) (item : KlineItem) :
    QuoteRow :=
  { symbol := symbol
    trade_date := normalize_trade_date item.time
    data_source := source
    period := period
    market := "CN"
    open_price := item.open_price
    high := item.high
    low := item.low
    close := item.close
    volume := item.volume
    amount := item.amount
    updated_at := now }

/-- `UpdateOne(filter_query, {$set: doc}, upsert=True)`: replace the first
row matching the four-tuple key, or append the document if none matches. -/
def update_one_upsert (k : String × String × String × String) (doc : QuoteRow) :
    List QuoteRow → List QuoteRow
  | [] => [doc]
  | r :: rs => if r.key = k then doc :: rs else r :: update_one_upsert k doc rs

/-- The per-bar body of `_save_kline_to_db`'s loop: skip bars with an empty
normalized trade date, upsert the rest keyed by the four-tuple. -/
def save_kline_step (now : Nat) (symbol source period : String)
    (st : List QuoteRow) (item : KlineItem) : List QuoteRow :=
  if normalize_trade_date item.time = "" then st
  else
    update_one_upsert (symbol, normalize_trade_date item.time, source, period)
      (kline_doc now symbol source period item) st

/-- `DataSourceManager._save_kline_to_db`. `db_ok = false` models an exception
raised by the Mongo driver; the `except` clause swallows it, leaving the store
untouched and returning normally. -/
def save_kline_to_db (db_ok : Bool) (now : Nat) (code : String)
    (items : List KlineItem) (source period : String)
    (store : List QuoteRow) : List QuoteRow :=
  if db_ok then
    let symbol := py_split_dot_head code
    items.foldl (save_kline_step now symbol source period) store
  else store

/-- `DataSourceManager.get_kline_with_fallback`: priority loop over the
available adapters; on the first non-empty result the bars are written
through to the quote store and the pair `(items, adapter_name)` is returned;
exhaustion yields `none` (Python `(None, None)`). -/
def get_kline_with_fallback (db_ok : Bool) (now : Nat) (code period : String) :
    List (AdapterCall (List KlineItem)) → List QuoteRow →
    Option (List KlineItem × String) × List QuoteRow
  | [], store => (none, store)
  | a :: rest, store =>
    match a.result with
    | .exc => get_kline_with_fallback db_ok now code period rest store
    | .ok items =>
      if items.isEmpty then
        get_kline_with_fallback db_ok now code period rest store
      else
        (some (items, a.name),
          save_kline_to_db db_ok now code items a.name period store)

/-- One news item is a dict of string fields. -/
abbrev NewsItem := List (String × String)

/-- `DataSourceManager.get_news_with_fallback`. -/
def get_news_with_fallback (adapters : List (AdapterCall (List NewsItem))) :
    Option (List NewsItem × String) :=
  fallback_first (fun items => !items.isEmpty) adapters

/-- One realtime snapshot entry (`{'close': …, 'pct_chg': …, 'amount': …}`). -/
structure RealtimeQuote where
  close : Option ℚ := none
  pct_chg : Option ℚ := none
  amount : Option ℚ := none
deriving Repr, DecidableEq

/-- The whole-market snapshot dict keyed by six-digit code. -/
abbrev RealtimeQuotes := List (String × RealtimeQuote)

/-- `DataSourceManager.get_realtime_quotes_with_fallback`. -/
def get_realtime_quotes_with_fallback
    (adapters : List (AdapterCall RealtimeQuotes)) :
    Option (RealtimeQuotes × String) :=
  fallback_first (fun data => !data.isEmpty) adapters

/-- A Python float: a finite value or NaN. -/
inductive PyFloat where
  | finite : ℚ → PyFloat
  | nan : PyFloat
deriving Repr, DecidableEq

/-- A Python value as fed to the adapter's numeric conversion: `None`, a
string, a number (finite or NaN), or an object whose `float()` conversion
raises `TypeError`. -/
inductive PyValue where
  | none_v : PyValue
  | str_v : String → PyValue
  | float_v : PyFloat → PyValue
  | other_v : PyValue
deriving Repr, DecidableEq

/-- One row of the `daily_basic` DataFrame built by an adapter. -/
structure BasicRow where
  ts_code : String := ""
  trade_date : String := ""
  name : String := ""
  close : Option PyFloat := none
  total_mv : Option PyFloat := none
  turnover_rate : Option PyFloat := none
  pe : Option PyFloat := none
  pb : Option PyFloat := none
deriving Repr, DecidableEq

/-- Truthiness test `df is not None and not df.empty` on an optional frame. -/
def df_truthy : Option (List BasicRow) → Bool
  | none => false
  | some df => !df.isEmpty

/-- Python `{name: idx for idx, name in enumerate(preferred_sources)}` with
`.get(name, 999)`: the index of the last occurrence, defaulting to 999. -/
def priority_map_get (names : List String) (n : String) : Nat :=
  ((names.enum.filter (fun p => p.2 = n)).getLast?.map (fun p => p.1)).getD 999

/-- Stable insertion of `x` after every element with a strictly smaller key
(equal keys keep the earlier element first, as Python's stable sort does). -/
def insort_by {α : Type} (key : α → Nat) (x : α) : List α → List α
  | [] => [x]
  | y :: ys => if key y < key x then y :: insort_by key x ys else x :: y :: ys

/-- Stable sort by key, mirroring Python's `list.sort(key=...)`. -/
def stable_sort_by {α : Type} (key : α → Nat) : List α → List α
  | [] => []
  | x :: xs => insort_by key x (stable_sort_by key xs)

/-- The `preferred_sources` reordering used by the daily-basic fallback:
adapters named in the preference list first (stably sorted by their position
in it), the remaining adapters after them in their original order. -/
def reorder_adapters {α : Type} (pref : Option (List String))
    (adapters : List (AdapterCall α)) : List (AdapterCall α) :=
  match pref with
  | none => adapters
  | some names =>
    let in_pref := adapters.filter (fun a => names.contains a.name)
    let others := adapters.filter (fun a => !names.contains a.name)
    stable_sort_by (fun a => priority_map_get names a.name) in_pref ++ others

/-- The body of `get_daily_basic_with_fallback`'s loop. -/
def daily_basic_loop :
    List (AdapterCall (Option (List BasicRow))) → Option (List BasicRow × String)
  | [] => none
  | a :: rest =>
    match a.result with
    | .exc => daily_basic_loop rest
    | .ok df? =>
      match df? with
      | some df => if df.isEmpty then daily_basic_loop rest else some (df, a.name)
      | none => daily_basic_loop rest

/-- `DataSourceManager.get_daily_basic_with_fallback`. -/
def get_daily_basic_with_fallback (pref : Option (List String))
    (adapters : List (AdapterCall (Option (List BasicRow)))) :
    Option (List BasicRow × String) :=
  daily_basic_loop (reorder_adapters pref adapters)

/-! ### Write-through persistence (C3, C10) -/

/-- The quote-store invariant: at most one row per four-tuple key. -/
def keys_unique (store : List QuoteRow) : Prop :=
  store.Pairwise (fun r1 r2 => r1.key ≠ r2.key)

/-- One recorded kline fetch: the arguments and adapter outcomes of a single
`get_kline_with_fallback` call. -/
structure KlineFetchCall where
  db_ok : Bool
  now : Nat
  code : String
  period : String
  adapters : List (AdapterCall (List KlineItem))

/-- A sequence of kline fetches threaded through the quote store. -/
def run_kline_fetches : List KlineFetchCall → List QuoteRow → List QuoteRow
  | [], store => store
  | c :: cs, store =>
    run_kline_fetches cs
      (get_kline_with_fallback c.db_ok c.now c.code c.period c.adapters store).2

/-! ## C4 — `submit_batch_analysis` / `run_concurrent_analysis`
(`app/routers/analysis.py`)

The endpoint validates the symbol list (`if not stock_symbols: raise`,
`if len(stock_symbols) > MAX_BATCH_SIZE: raise`) before any task is created;
a `ValueError` is caught by the outer handler and becomes an HTTP 400. On
acceptance it creates one task per symbol and hands the task ids to
`run_concurrent_analysis`, which spawns one `asyncio.create_task` per task
and then performs a single `asyncio.gather` over all of them. -/

/-- Observable scheduling events of the batch endpoint's background runner. -/
inductive BatchEvent where
  | spawn : String → BatchEvent
  | gather_all : BatchEvent
deriving Repr, DecidableEq

/-- `MAX_BATCH_SIZE = 10`. -/
def MAX_BATCH_SIZE : Nat := 10

/-- The inner `run_concurrent_analysis` coroutine: create every concurrent
task first, then await them collectively with one `gather`. -/
def run_concurrent_analysis (task_ids : List String) : List BatchEvent :=
  task_ids.map BatchEvent.spawn ++ [BatchEvent.gather_all]

/-- `submit_batch_analysis`, parameterized by the task-creation service
(`create_analysis_task`, an external service call mapped over the symbols).
The error case carries the HTTP status of the response; the success case
carries the created task ids together with the scheduling trace of the
background runner. No task is created or spawned on the error path. -/
def submit_batch_analysis (create_task : String → String)
    (stock_symbols : List String) :
    Except Nat (List String × List BatchEvent) :=
  if stock_symbols.isEmpty then .error 400
  else if stock_symbols.length > MAX_BATCH_SIZE then .error 400
  else
    let task_ids := stock_symbols.map create_task
    .ok (task_ids, run_concurrent_analysis task_ids)

/-! ## C5 — `create_summary_agent.summary_node`
(`tradingagents/agents/summary/summary_agent.py`)

The LLM client and `json.loads` are external: the node is parameterized by
the LLM outcome (`Except Unit String`: an exception or the response text)
and by the JSON parser (`String → Option SJson`, `none` modelling
`json.JSONDecodeError`). -/

/-- Python whitespace stripped by `str.strip()` (ASCII subset). -/
def is_py_space (c : Char) : Bool :=
  c = ' ' || c = '\t' || c = '\n' || c = '\r' || c = '\x0b' || c = '\x0c'

/-- Python's `s.strip()`. -/
def py_strip (s : String) : String :=
  ⟨((s.data.dropWhile is_py_space).reverse.dropWhile is_py_space).reverse⟩

/-- Python's `s[n:]` (character slicing). -/
def py_drop (s : String) (n : Nat) : String :=
  ⟨s.data.drop n⟩

/-- Python's `s[:-n]` (character slicing; empty when `n ≥ len(s)`). -/
def py_drop_right (s : String) (n : Nat) : String :=
  ⟨s.data.take (s.data.length - n)⟩

/-- Python's `s.endswith(suf)`. -/
def str_endswith (s suf : String) : Bool :=
  suf.data.isSuffixOf s.data

/-- A parsed JSON value, as produced by `json.loads`. -/
inductive SJson where
  | str : String → SJson
  | num : ℚ → SJson
  | arr : List SJson → SJson
  | obj : List (String × SJson) → SJson
deriving Repr

/-- Field lookup on a JSON object. -/
def obj_get (j : SJson) (k : String) : Option SJson :=
  match j with
  | .obj kvs => (kvs.find? (fun p => p.1 == k)).map (fun p => p.2)
  | _ => none

/-- The markdown-fence cleanup applied to the LLM response before parsing:
strip, drop a leading triple-backtick-json fence, drop a trailing
triple-backtick fence, strip again. -/
def clean_content (content : String) : String :=
  let c0 := py_strip content
  let c1 := if str_startswith c0 "```json" then py_drop c0 7 else c0
  let c2 := if str_endswith c1 "```" then py_drop_right c1 3 else c1
  py_strip c2

/-- The deterministic fallback object of the `json.JSONDecodeError` handler. -/
def parse_fail_default : SJson :=
  .obj [("key_indicators", .obj [("entry_price", .str "N/A"),
          ("target_price", .str "N/A"), ("stop_loss", .str "N/A")]),
        ("model_confidence", .num 50),
        ("risk_assessment", .obj [("level", .str "Medium"),
          ("score", .num 5), ("description", .str "解析失败，使用默认值")]),
        ("analysis_reference", .arr []),
        ("final_signal", .str "Hold")]

/-- The fallback object of the generic `except Exception` handler. -/
def generic_fail_default : SJson :=
  .obj [("key_indicators", .obj [("entry_price", .str "N/A"),
          ("target_price", .str "N/A"), ("stop_loss", .str "N/A")]),
        ("model_confidence", .num 0),
        ("risk_assessment", .obj [("level", .str "Low"),
          ("score", .num 0), ("description", .str "生成失败")]),
        ("analysis_summary", .str "系统错误：无法生成分析摘要"),
        ("investment_recommendation", .str "暂无建议"),
        ("analysis_reference", .arr []),
        ("final_signal", .str "Hold")]

/-- `summary_node`: invoke the LLM, clean the fences, parse; on a parse
failure fall back to `parse_fail_default`, on any other exception to
`generic_fail_default`; always return the delta `{"structured_summary": …}`. -/
def summary_node (parse_json : String → Option SJson)
    (llm_response : Except Unit String) : List (String × SJson) :=
  match llm_response with
  | .error _ => [("structured_summary", generic_fail_default)]
  | .ok raw =>
    match parse_json (clean_content raw) with
    | some structured_data => [("structured_summary", structured_data)]
    | none => [("structured_summary", parse_fail_default)]

/-! ## C6 — `DynamicAnalystFactory.build_progress_map`
(`tradingagents/agents/analysts/dynamic_analyst.py`)

`get_agent_config` and `get_all_agents` read the YAML config store, an
external input, so they enter as parameters. Python `float` arithmetic is
modelled in exact rationals; `round(x, 1)` is modelled as exact rounding to
one decimal with ties to even, Python's rounding mode. The percent map is a
Python dict, modelled as the list of assignments with last-write-wins
lookup. -/

/-- One agent record as far as the progress map reads it. -/
structure AgentConfig where
  slug : String := ""
  name : String := ""
deriving Repr, DecidableEq

/-- Python's `s.lower()` (character-wise). -/
def py_lower (s : String) : String :=
  ⟨s.data.map Char.toLower⟩

/-- `DynamicAnalystFactory._get_analyst_icon`: keyword match on the lowered
slug and the display name. -/
def get_analyst_icon (slug name : String) : String :=
  let search_key := py_lower slug
  if str_contains search_key "news" || str_contains name "新闻" then "📰"
  else if str_contains search_key "social" || str_contains search_key "sentiment"
      || str_contains name "社交" || str_contains name "情绪" then "💬"
  else if str_contains search_key "fundamental"
      || str_contains name "基本面" then "💼"
  else if str_contains search_key "china" || str_contains name "中国" then "🇨🇳"
  else if str_contains search_key "capital" || str_contains name "资金" then "💸"
  else if str_contains search_key "market" || str_contains name "市场"
      || str_contains name "技术" then "📊"
  else "🤖"

/-- `f"{icon} {name}"`, the dict key used by the progress map. -/
def display_name (a : AgentConfig) : String :=
  get_analyst_icon a.slug a.name ++ " " ++ a.name

/-- Rounding to the nearest integer with ties to even, Python's `round`. -/
def round_half_even (x : ℚ) : ℤ :=
  if Int.fract x < 1/2 then ⌊x⌋
  else if 1/2 < Int.fract x then ⌊x⌋ + 1
  else if ⌊x⌋ % 2 = 0 then ⌊x⌋ else ⌊x⌋ + 1

/-- Python's `round(x, 1)` on exact rationals. -/
def py_round1 (x : ℚ) : ℚ :=
  (round_half_even (10 * x) : ℚ) / 10

/-- The percentage assigned to the 0-based `i`-th of `n` enabled analysts:
`round(10 + (i + 1) * (40 / analyst_count), 1)`. -/
def analyst_progress (n i : Nat) : ℚ :=
  py_round1 (10 + ((i : ℚ) + 1) * (40 / (n : ℚ)))

/-- The analyst part of the progress map: `for i, agent in enumerate(agents)`
starting at index `start`, skipping agents with an empty slug or name. -/
def analyst_assignments (n : Nat) : Nat → List AgentConfig → List (String × ℚ)
  | _, [] => []
  | i, a :: rest =>
    (if a.slug = "" ∨ a.name = "" then []
     else [(display_name a, analyst_progress n i)])
      ++ analyst_assignments n (i + 1) rest

/-- The fixed non-analyst progress anchors appended by `progress_map.update`. -/
def fixed_progress_anchors : List (String × ℚ) :=
  [("🐂 看涨研究员", 51.25), ("🐻 看跌研究员", 57.5), ("👔 研究经理", 70),
   ("💼 交易员决策", 78), ("🔥 激进风险评估", 81.75), ("🛡️ 保守风险评估", 85.5),
   ("⚖️ 中性风险评估", 89.25), ("🎯 风险经理", 93), ("📊 生成报告", 97)]

/-- The agent list the builder works on: the looked-up configs of the
selected analysts when a non-empty selection is passed (unresolvable ids are
skipped), otherwise all configured agents (`if selected_analysts:` is falsy
for both `None` and `[]`). -/
def selected_agents (selected_analysts : Option (List String))
    (get_agent_config : String → Option AgentConfig)
    (all_agents : List AgentConfig) : List AgentConfig :=
  match selected_analysts with
  | some ids =>
    if ids.isEmpty then all_agents else ids.filterMap get_agent_config
  | none => all_agents

/-- `DynamicAnalystFactory.build_progress_map` as the assignment log of the
Python dict it builds. -/
def build_progress_map (selected_analysts : Option (List String))
    (get_agent_config : String → Option AgentConfig)
    (all_agents : List AgentConfig) : List (String × ℚ) :=
  (if 0 < (selected_agents selected_analysts get_agent_config all_agents).length
   then
     analyst_assignments
       (selected_agents selected_analysts get_agent_config all_agents).length 0
       (selected_agents selected_analysts get_agent_config all_agents)
   else [])
    ++ fixed_progress_anchors

/-- Last-write-wins lookup in a dict assignment log. -/
def dict_get (m : List (String × ℚ)) (k : String) : Option ℚ :=
  match m with
  | [] => none
  | kv :: rest =>
    match dict_get rest k with
    | some v => some v
    | none => if kv.1 = k then some kv.2 else none

/-! ## C7 — `create_bull_researcher.bull_node`
(`tradingagents/agents/stage_2/bull_researcher.py`)

Only the state update of the node is modelled; the LLM response enters as the
`raw_response` argument. The node cleans the response, stores it into
`rounds[current_round_index]["bull"]`, appends a titled section to the
accumulated bull report unless the round's section title is already present,
and appends the round's utterance to `history` / `bull_history` unless the
round marker is already present in `bull_history`. -/

/-- Split a character list at every occurrence of `c` (Python `split`). -/
def split_on_char (c : Char) : List Char → List (List Char)
  | [] => [[]]
  | x :: xs =>
    if x = c then [] :: split_on_char c xs
    else
      match split_on_char c xs with
      | seg :: rest => (x :: seg) :: rest
      | [] => [[x]]

/-- Python's `s.split('\n')`. -/
def py_split_nl (s : String) : List String :=
  (split_on_char '\n' s.data).map (fun l => ⟨l⟩)

/-- Join lines with a newline (Python `'\n'.join(lines)`). -/
def join_nl : List String → String
  | [] => ""
  | [x] => x
  | x :: xs => x ++ "\n" ++ join_nl xs

/-- The heading cleanup applied to the LLM response: drop lines whose
stripped form starts with a level-one heading, or a level-two heading whose
raw line mentions 分析报告; then re-join and strip. -/
def clean_bull_content (content : String) : String :=
  py_strip (join_nl ((py_split_nl (py_strip content)).filter (fun line =>
    !(str_startswith (py_strip line) "# " ||
      (str_startswith (py_strip line) "## " && str_contains line "分析报告")))))

/-- The round-specific section title of the accumulated bull report. -/
def section_title (round_index : Nat) : String :=
  if round_index = 0 then "## 初始报告：核心投资论点"
  else "## 第 " ++ toString round_index ++ " 轮辩论报告：针对空方观点的反驳与辩护"

/-- The round marker heading the utterance pushed into the histories
(the `argument_prefix` of the source). -/
def round_marker (round_index : Nat) : String :=
  if round_index = 0 then "# 【多头分析师 - 初始报告】"
  else "# 【多头分析师 - 第 " ++ toString round_index ++ " 轮辩论】"

/-- Write the bull utterance of position `i` (no-op past the end, which the
caller rules out by appending one empty round first). -/
def set_nth_bull : List DebateRound → Nat → String → List DebateRound
  | [], _, _ => []
  | r :: rs, 0, c => { r with bull := some c } :: rs
  | r :: rs, Nat.succ i, c => r :: set_nth_bull rs i c

/-- `if current_round_index >= len(rounds): rounds.append({})` followed by
`rounds[current_round_index]["bull"] = content`. -/
def set_round_bull (rounds : List DebateRound) (i : Nat) (c : String) :
    List DebateRound :=
  set_nth_bull
    (if rounds.length ≤ i then rounds ++ [DebateRound.mk none none] else rounds)
    i c

/-- The delta returned by the bull node: the new debate state plus the
`reports["bull_researcher"]` entry. -/
structure BullDelta where
  investment_debate_state : InvestmentDebateState
  bull_researcher_report : String

/-- The state update of `bull_node`. The returned dict omits `max_rounds`;
every reader defaults the missing key to 2, so the field is stored as 2. -/
def bull_update (state : InvestmentDebateState) (raw_response : String) :
    BullDelta :=
  let content := clean_bull_content raw_response
  let r := state.current_round_index
  let new_rounds := set_round_bull state.rounds r content
  let new_bull_report :=
    if str_contains state.bull_report_content (section_title r)
    then state.bull_report_content
    else state.bull_report_content ++ "\n\n" ++ section_title r
      ++ "\n\n" ++ content
  let argument := round_marker r ++ "\n" ++ content
  let new_history :=
    if str_contains state.bull_history (round_marker r) then state.history
    else state.history ++ "\n" ++ argument
  let new_bull_history :=
    if str_contains state.bull_history (round_marker r) then state.bull_history
    else state.bull_history ++ "\n" ++ argument
  { investment_debate_state :=
      { history := new_history
        bull_history := new_bull_history
        bear_history := state.bear_history
        current_response := argument
        count := state.count + 1
        rounds := new_rounds
        bull_report_content := new_bull_report
        bear_report_content := state.bear_report_content
        current_round_index := (state.count + 1) / 2
        max_rounds := 2 }
    bull_researcher_report := new_bull_report }

/-- The debate state carried by the bull node's delta. -/
def bull_state_after (state : InvestmentDebateState) (c : String) :
    InvestmentDebateState :=
  (bull_update state c).investment_debate_state

/-! ## C8 — MCP restart budget (`tradingagents/tools/mcp/loader.py`)

`_can_restart_server`, `_record_restart` and `restart_server`, with
`time.time()` modelled as a rational argument and the per-server dicts as
total functions defaulting to 0. `refresh_ok` is the outcome of
`refresh_server`; on success `_initialize_single_server` resets the server's
restart count to 0. -/

/-- `MAX_RESTART_ATTEMPTS = 3`. -/
def MAX_RESTART_ATTEMPTS : Nat := 3

/-- `RESTART_WINDOW_SECONDS = 300`. -/
def RESTART_WINDOW_SECONDS : ℚ := 300

/-- The restart bookkeeping of the loader: `_restart_counts` and
`_last_restart_time`, keyed by server name. -/
structure RestartState where
  restart_counts : String → Nat
  last_restart_time : String → ℚ

/-- Fresh loader state: empty dicts, every `get` defaulting to 0. -/
def initial_restart_state : RestartState :=
  { restart_counts := fun _ => 0, last_restart_time := fun _ => 0 }

/-- `self._restart_counts[server_name] = 0`. -/
def reset_count (server_name : String) (st : RestartState) : RestartState :=
  { st with restart_counts :=
      fun n => if n = server_name then 0 else st.restart_counts n }

/-- `_can_restart_server`: under budget always allowed; at the budget allowed
only when the window has elapsed since the last restart, in which case the
count is reset. -/
def can_restart_server (now : ℚ) (server_name : String) (st : RestartState) :
    Bool × RestartState :=
  if st.restart_counts server_name ≥ MAX_RESTART_ATTEMPTS then
    if now - st.last_restart_time server_name < RESTART_WINDOW_SECONDS then
      (false, st)
    else (true, reset_count server_name st)
  else (true, st)

/-- `_record_restart`: bump the count and stamp the time. -/
def record_restart (now : ℚ) (server_name : String) (st : RestartState) :
    RestartState :=
  { restart_counts :=
      fun n => if n = server_name then st.restart_counts n + 1
        else st.restart_counts n
    last_restart_time :=
      fun n => if n = server_name then now else st.last_restart_time n }

/-- `restart_server`: refuse when the budget check fails; otherwise record
the restart and refresh the server, a successful reconnect resetting the
count to 0 inside `_initialize_single_server`. -/
def restart_server (now : ℚ) (server_name : String) (refresh_ok : Bool)
    (st : RestartState) : Bool × RestartState :=
  let cr := can_restart_server now server_name st
  if !cr.1 then (false, cr.2)
  else
    let st2 := record_restart now server_name cr.2
    let st3 := if refresh_ok then reset_count server_name st2 else st2
    (refresh_ok, st3)

/-- A sequence of restart requests `(time, refresh outcome)` against one
server, with the returned booleans collected. -/
def process_restart_requests (server_name : String) :
    List (ℚ × Bool) → RestartState → List Bool × RestartState
  | [], st => ([], st)
  | (t, ok) :: reqs, st =>
    let r := restart_server t server_name ok st
    let rest := process_restart_requests server_name reqs r.2
    (r.1 :: rest.1, rest.2)

/-! ## C9 — `AKShareAdapter._safe_float` / `AKShareAdapter.get_daily_basic`
(`app/services/data_sources/akshare_adapter.py`)

Python's string-to-float parser enters as the `parse_float` parameter
(`none` modelling a `ValueError`). -/

/-- `AKShareAdapter._safe_float`: `None`, `''` and `'None'` map to `None`;
`float(value)` is the identity on numbers (including NaN), string parsing on
strings; `ValueError` / `TypeError` are swallowed into `None`. -/
def safe_float (parse_float : String → Option PyFloat) :
    PyValue → Option PyFloat
  | .none_v => none
  | .str_v s => if s = "" ∨ s = "None" then none else parse_float s
  | .float_v f => some f
  | .other_v => none

/-- Python truthiness of a float: zero is falsy, NaN and non-zero truthy. -/
def py_truthy_float : PyFloat → Bool
  | .finite q => decide (q ≠ 0)
  | .nan => true

/-- Division of a Python float by 10000 (万元 → 亿元). -/
def pyfloat_div_10000 : PyFloat → PyFloat
  | .finite q => .finite (q / 10000)
  | .nan => .nan

/-- One stock of the `get_daily_basic` loop: the elapsed seconds observed at
the top of its iteration, the stock-list fields, and the outcome of
`ak.stock_individual_info_em` (`.exc` an exception, `.ok none` a `None`
frame, `.ok (some info)` the rows of the info frame). -/
structure StockFetch where
  elapsed : ℚ := 0
  symbol : String := ""
  name : String := ""
  ts_code : String := ""
  fetch : Fetch (Option (List (String × PyValue))) := .ok none

/-- `info_dict[item] = value` built row by row, then `.get(k, dflt)`:
the last occurrence wins. -/
def info_get (info : List (String × PyValue)) (k : String) (dflt : PyValue) :
    PyValue :=
  match info.reverse.find? (fun p => p.1 == k) with
  | some p => p.2
  | none => dflt

/-- The `basic_data.append({...})` record built for one stock. -/
def make_basic_row (parse_float : String → Option PyFloat)
    (trade_date : String) (s : StockFetch)
    (info : List (String × PyValue)) : BasicRow :=
  let latest_price := safe_float parse_float (info_get info "最新" (.float_v (.finite 0)))
  let total_mv_wan := safe_float parse_float (info_get info "总市值" (.float_v (.finite 0)))
  let total_mv_yi :=
    match total_mv_wan with
    | some f => if py_truthy_float f then some (pyfloat_div_10000 f) else none
    | none => none
  { ts_code := s.ts_code
    trade_date := trade_date
    name := s.name
    close := latest_price
    total_mv := total_mv_yi
    turnover_rate := none
    pe := none
    pb := none }

/-- The per-stock loop of `get_daily_basic`: break on the 30 s timeout, skip
stocks with an empty symbol, skip stocks whose info fetch raised or came back
empty, append a row for the rest. -/
def collect_basic_data (parse_float : String → Option PyFloat)
    (trade_date : String) : List StockFetch → List BasicRow
  | [] => []
  | s :: rest =>
    if s.elapsed > 30 then []
    else if s.symbol = "" then collect_basic_data parse_float trade_date rest
    else
      match s.fetch with
      | .exc => collect_basic_data parse_float trade_date rest
      | .ok none => collect_basic_data parse_float trade_date rest
      | .ok (some info) =>
        if info.isEmpty then collect_basic_data parse_float trade_date rest
        else make_basic_row parse_float trade_date s info
          :: collect_basic_data parse_float trade_date rest

/-- `AKShareAdapter.get_daily_basic`: head(10) of the stock list, the
collection loop, `None` when unavailable or nothing was collected. -/
def get_daily_basic (available : Bool)
    (parse_float : String → Option PyFloat) (trade_date : String)
    (stocks : List StockFetch) : Option (List BasicRow) :=
  if !available then none
  else
    if (collect_basic_data parse_float trade_date (stocks.take 10)).isEmpty
    then none
    else some (collect_basic_data parse_float trade_date (stocks.take 10))

/-! ## Theorems -/

/-- Membership form of `str_contains`. -/
theorem str_contains_iff {s sub : String} :
    str_contains s sub = true ↔ sub.data <:+: s.data := by
  unfold str_contains
  exact decide_eq_true_iff

theorem str_contains_append_right {a b t : String}
    (h : str_contains b t = true) : str_contains (a ++ b) t = true := by
  rw [str_contains_iff] at h ⊢
  rw [String.data_append]
  exact h.trans (List.suffix_append _ _).isInfix

theorem str_contains_append_left {a b t : String}
    (h : str_contains a t = true) : str_contains (a ++ b) t = true := by
  rw [str_contains_iff] at h ⊢
  rw [String.data_append]
  exact h.trans (List.prefix_append _ _).isInfix

theorem str_contains_self {t : String} : str_contains t t = true := by
  rw [str_contains_iff]

/-- C1. The investment-debate router returns "Research Manager" iff
`count ≥ 2 * (max_debate_rounds + 1)`; below the bound it returns
"Bear Researcher" when the latest speaker matches the bull patterns,
"Bull Researcher" when it matches the bear patterns, and defaults to
"Bull Researcher" when neither pattern matches. -/
theorem should_continue_debate_spec (m : Nat) (state : InvestmentDebateState) :
    (should_continue_debate m state = "Research Manager" ↔
      state.count ≥ 2 * (m + 1)) ∧
    (state.count < 2 * (m + 1) →
      (matches_bull state.current_response = true →
        should_continue_debate m state = "Bear Researcher") ∧
      (matches_bull state.current_response = false →
        matches_bear state.current_response = true →
        should_continue_debate m state = "Bull Researcher") ∧
      (matches_bull state.current_response = false →
        matches_bear state.current_response = false →
        should_continue_debate m state = "Bull Researcher")) := by
  unfold should_continue_debate
  constructor
  · constructor
    · intro h
      by_contra hc
      simp only [not_le] at hc
      rw [if_neg (by omega)] at h
      revert h
      split <;> intro h <;> simp_all
    · intro h
      rw [if_pos h]
  · intro hlt
    rw [if_neg (by omega)]
    refine ⟨fun hb => ?_, fun hb1 hb2 => ?_, fun hb1 hb2 => ?_⟩
    · rw [if_pos hb]
    · rw [if_neg (by simp [hb1]), if_pos hb2]
    · rw [if_neg (by simp [hb1]), if_neg (by simp [hb2])]

/-- Witness for C1 at a concrete state: one bull utterance recorded,
round budget not yet exhausted, bull speaker recognised. -/
theorem should_continue_debate_spec_witness :
    should_continue_debate 1 { current_response := "Bull Analyst: buy", count := 1 }
      = "Bear Researcher" := by
  have h := (should_continue_debate_spec 1
    { current_response := "Bull Analyst: buy", count := 1 }).2 (by decide)
  exact h.1 (by decide)

theorem fallback_first_eq_none {α : Type} (truthy : α → Bool)
    (l : List (AdapterCall α)) (h : ∀ a ∈ l, is_skipped truthy a = true) :
    fallback_first truthy l = none := by
  induction l with
  | nil => rfl
  | cons a rest ih =>
    have ha := h a (List.mem_cons_self a rest)
    unfold fallback_first
    unfold is_skipped at ha
    cases hr : a.result with
    | exc => exact ih fun b hb => h b (List.mem_cons_of_mem a hb)
    | ok v =>
      rw [hr] at ha
      simp only [Bool.not_eq_true'] at ha
      show (if truthy v = true then some (v, a.name) else fallback_first truthy rest)
        = none
      rw [if_neg (by simp [ha])]
      exact ih fun b hb => h b (List.mem_cons_of_mem a hb)

theorem fallback_first_eq_some {α : Type} (truthy : α → Bool)
    (l1 l2 : List (AdapterCall α)) (a : AdapterCall α) (v : α)
    (hskip : ∀ b ∈ l1, is_skipped truthy b = true)
    (hres : a.result = .ok v) (ht : truthy v = true) :
    fallback_first truthy (l1 ++ a :: l2) = some (v, a.name) := by
  induction l1 with
  | nil => simp [fallback_first, hres, ht]
  | cons b bs ih =>
    have hb := hskip b (List.mem_cons_self b bs)
    unfold is_skipped at hb
    rw [List.cons_append]
    unfold fallback_first
    cases hbr : b.result with
    | exc => exact ih fun c hc => hskip c (List.mem_cons_of_mem b hc)
    | ok w =>
      rw [hbr] at hb
      simp only [Bool.not_eq_true'] at hb
      show (if truthy w = true then some (w, b.name)
        else fallback_first truthy (bs ++ a :: l2)) = some (v, a.name)
      rw [if_neg (by simp [hb])]
      exact ih fun c hc => hskip c (List.mem_cons_of_mem b hc)

theorem save_kline_step_skip {now : Nat} {symbol source period : String}
    {st : List QuoteRow} {item : KlineItem}
    (h : normalize_trade_date item.time = "") :
    save_kline_step now symbol source period st item = st := by
  unfold save_kline_step
  rw [if_pos h]

theorem save_kline_step_upsert {now : Nat} {symbol source period : String}
    {st : List QuoteRow} {item : KlineItem}
    (h : normalize_trade_date item.time ≠ "") :
    save_kline_step now symbol source period st item
      = update_one_upsert (symbol, normalize_trade_date item.time, source, period)
          (kline_doc now symbol source period item) st := by
  unfold save_kline_step
  rw [if_neg h]

theorem save_kline_to_db_true (now : Nat) (code : String)
    (items : List KlineItem) (source period : String) (store : List QuoteRow) :
    save_kline_to_db true now code items source period store
      = items.foldl
          (save_kline_step now (py_split_dot_head code) source period) store :=
  rfl

theorem save_kline_to_db_false (now : Nat) (code : String)
    (items : List KlineItem) (source period : String) (store : List QuoteRow) :
    save_kline_to_db false now code items source period store = store :=
  rfl

theorem get_kline_fst (db_ok : Bool) (now : Nat) (code period : String)
    (l : List (AdapterCall (List KlineItem))) (store : List QuoteRow) :
    (get_kline_with_fallback db_ok now code period l store).1
      = fallback_first (fun items => !items.isEmpty) l := by
  induction l generalizing store with
  | nil => rfl
  | cons a rest ih =>
    unfold get_kline_with_fallback fallback_first
    cases a.result with
    | exc => exact ih store
    | ok items =>
      cases h : items.isEmpty with
      | true => simpa [h] using ih store
      | false => simp [h]

theorem daily_basic_loop_none (l : List (AdapterCall (Option (List BasicRow))))
    (h : ∀ a ∈ l, is_skipped df_truthy a = true) :
    daily_basic_loop l = none := by
  induction l with
  | nil => rfl
  | cons a rest ih =>
    have ha := h a (List.mem_cons_self a rest)
    have ih' := ih fun b hb => h b (List.mem_cons_of_mem a hb)
    unfold daily_basic_loop
    unfold is_skipped at ha
    cases hr : a.result with
    | exc => exact ih'
    | ok df? =>
      rw [hr] at ha
      cases df? with
      | none => exact ih'
      | some df =>
        simp only [df_truthy, Bool.not_not] at ha
        show (if df.isEmpty = true then daily_basic_loop rest
          else some (df, a.name)) = none
        rw [if_pos ha]
        exact ih'

theorem daily_basic_loop_some
    (l1 l2 : List (AdapterCall (Option (List BasicRow))))
    (a : AdapterCall (Option (List BasicRow))) (df : List BasicRow)
    (hskip : ∀ b ∈ l1, is_skipped df_truthy b = true)
    (hres : a.result = .ok (some df)) (hne : df.isEmpty = false) :
    daily_basic_loop (l1 ++ a :: l2) = some (df, a.name) := by
  induction l1 with
  | nil => simp [daily_basic_loop, hres, hne]
  | cons b bs ih =>
    have hb := hskip b (List.mem_cons_self b bs)
    have ih' := ih fun c hc => hskip c (List.mem_cons_of_mem b hc)
    rw [List.cons_append]
    unfold daily_basic_loop
    unfold is_skipped at hb
    cases hbr : b.result with
    | exc => exact ih'
    | ok df? =>
      rw [hbr] at hb
      cases df? with
      | none => exact ih'
      | some w =>
        simp only [df_truthy, Bool.not_not] at hb
        show (if w.isEmpty = true then daily_basic_loop (bs ++ a :: l2)
          else some (w, b.name)) = some (df, a.name)
        rw [if_pos hb]
        exact ih'

/-- C2. Every fallback operation of the orchestrator (kline, news, realtime
quotes, daily basic) tries its adapters in order; the first adapter whose
result is non-empty determines the returned `(result, adapter_name)` pair; an
adapter that raises is skipped exactly like one returning an empty result;
when every adapter is exhausted the operation returns `none` — the Python
`(None, None)` pair — and, being a total function, never raises. For the
daily-basic operation the order tried is the `preferred_sources` reordering
of the adapter list. -/
theorem fallback_operations_spec
    (kl : List (AdapterCall (List KlineItem)))
    (nw : List (AdapterCall (List NewsItem)))
    (rt : List (AdapterCall RealtimeQuotes))
    (db : List (AdapterCall (Option (List BasicRow))))
    (pref : Option (List String)) (db_ok : Bool) (now : Nat)
    (code period : String) (store : List QuoteRow) :
    (∀ l1 a l2 items, kl = l1 ++ a :: l2 →
      (∀ b ∈ l1, is_skipped (fun v : List KlineItem => !v.isEmpty) b = true) →
      a.result = .ok items → items.isEmpty = false →
      (get_kline_with_fallback db_ok now code period kl store).1
        = some (items, a.name)) ∧
    ((∀ b ∈ kl, is_skipped (fun v : List KlineItem => !v.isEmpty) b = true) →
      (get_kline_with_fallback db_ok now code period kl store).1 = none) ∧
    (∀ l1 a l2 items, nw = l1 ++ a :: l2 →
      (∀ b ∈ l1, is_skipped (fun v : List NewsItem => !v.isEmpty) b = true) →
      a.result = .ok items → items.isEmpty = false →
      get_news_with_fallback nw = some (items, a.name)) ∧
    ((∀ b ∈ nw, is_skipped (fun v : List NewsItem => !v.isEmpty) b = true) →
      get_news_with_fallback nw = none) ∧
    (∀ l1 a l2 data, rt = l1 ++ a :: l2 →
      (∀ b ∈ l1, is_skipped (fun v : RealtimeQuotes => !v.isEmpty) b = true) →
      a.result = .ok data → data.isEmpty = false →
      get_realtime_quotes_with_fallback rt = some (data, a.name)) ∧
    ((∀ b ∈ rt, is_skipped (fun v : RealtimeQuotes => !v.isEmpty) b = true) →
      get_realtime_quotes_with_fallback rt = none) ∧
    (∀ l1 a l2 df, reorder_adapters pref db = l1 ++ a :: l2 →
      (∀ b ∈ l1, is_skipped df_truthy b = true) →
      a.result = .ok (some df) → df.isEmpty = false →
      get_daily_basic_with_fallback pref db = some (df, a.name)) ∧
    ((∀ b ∈ reorder_adapters pref db, is_skipped df_truthy b = true) →
      get_daily_basic_with_fallback pref db = none) := by
  refine ⟨?_, ?_, ?_, ?_, ?_, ?_, ?_, ?_⟩
  · intro l1 a l2 items heq hskip hres hne
    rw [get_kline_fst, heq]
    exact fallback_first_eq_some _ l1 l2 a items hskip hres (by simp [hne])
  · intro hall
    rw [get_kline_fst]
    exact fallback_first_eq_none _ kl hall
  · intro l1 a l2 items heq hskip hres hne
    rw [get_news_with_fallback, heq]
    exact fallback_first_eq_some _ l1 l2 a items hskip hres (by simp [hne])
  · intro hall
    exact fallback_first_eq_none _ nw hall
  · intro l1 a l2 data heq hskip hres hne
    rw [get_realtime_quotes_with_fallback, heq]
    exact fallback_first_eq_some _ l1 l2 a data hskip hres (by simp [hne])
  · intro hall
    exact fallback_first_eq_none _ rt hall
  · intro l1 a l2 df heq hskip hres hne
    rw [get_daily_basic_with_fallback, heq]
    exact daily_basic_loop_some l1 l2 a df hskip hres hne
  · intro hall
    exact daily_basic_loop_none _ hall

/-- Witness for C2: two adapters, the first raising, the second returning one
news item; the fallback returns the second adapter's result and name. -/
theorem fallback_operations_spec_witness :
    get_news_with_fallback
      [{ name := "tushare", result := .exc },
       { name := "akshare", result := .ok [[("title", "t")]] }]
      = some ([[("title", "t")]], "akshare") := by
  exact (fallback_operations_spec [] _ [] [] none true 0 "" "" []).2.2.1
    [{ name := "tushare", result := .exc }]
    { name := "akshare", result := .ok [[("title", "t")]] } [] _
    rfl (by decide) rfl rfl

theorem mem_update_one_upsert {k : String × String × String × String}
    {doc r : QuoteRow} {st : List QuoteRow}
    (h : r ∈ update_one_upsert k doc st) : r ∈ st ∨ r = doc := by
  induction st with
  | nil =>
    right
    simpa [update_one_upsert] using h
  | cons x xs ih =>
    unfold update_one_upsert at h
    by_cases hx : x.key = k
    · rw [if_pos hx] at h
      rcases List.mem_cons.1 h with h | h
      · exact Or.inr h
      · exact Or.inl (List.mem_cons_of_mem x h)
    · rw [if_neg hx] at h
      rcases List.mem_cons.1 h with h | h
      · exact Or.inl (h ▸ List.mem_cons_self x xs)
      · rcases ih h with h | h
        · exact Or.inl (List.mem_cons_of_mem x h)
        · exact Or.inr h

theorem doc_mem_update_one_upsert (k : String × String × String × String)
    (doc : QuoteRow) (st : List QuoteRow) :
    doc ∈ update_one_upsert k doc st := by
  induction st with
  | nil => exact List.mem_singleton.2 rfl
  | cons x xs ih =>
    unfold update_one_upsert
    by_cases hx : x.key = k
    · rw [if_pos hx]; exact List.mem_cons_self doc xs
    · rw [if_neg hx]; exact List.mem_cons_of_mem x ih

theorem update_one_upsert_keys_unique {k : String × String × String × String}
    {doc : QuoteRow} (hd : doc.key = k) {st : List QuoteRow}
    (h : keys_unique st) : keys_unique (update_one_upsert k doc st) := by
  induction st with
  | nil => simp [update_one_upsert, keys_unique]
  | cons x xs ih =>
    rw [keys_unique, List.pairwise_cons] at h
    unfold update_one_upsert
    by_cases hx : x.key = k
    · rw [if_pos hx]
      rw [keys_unique, List.pairwise_cons]
      exact ⟨fun r hr => by rw [hd, ← hx]; exact h.1 r hr, h.2⟩
    · rw [if_neg hx]
      rw [keys_unique, List.pairwise_cons]
      refine ⟨fun r hr => ?_, ih h.2⟩
      rcases mem_update_one_upsert hr with hr | hr
      · exact h.1 r hr
      · rw [hr, hd]; exact hx

theorem update_one_upsert_key_superset {k : String × String × String × String}
    {doc : QuoteRow} (hd : doc.key = k) {st : List QuoteRow} :
    ∀ r ∈ st, ∃ r' ∈ update_one_upsert k doc st, r'.key = r.key := by
  induction st with
  | nil => intro r hr; cases hr
  | cons x xs ih =>
    intro r hr
    unfold update_one_upsert
    by_cases hx : x.key = k
    · rw [if_pos hx]
      rcases List.mem_cons.1 hr with hr | hr
      · exact ⟨doc, List.mem_cons_self doc xs, by rw [hd, hr, hx]⟩
      · exact ⟨r, List.mem_cons_of_mem doc hr, rfl⟩
    · rw [if_neg hx]
      rcases List.mem_cons.1 hr with hr | hr
      · exact ⟨x, List.mem_cons_self x _, by rw [hr]⟩
      · rcases ih r hr with ⟨r', hr', hk⟩
        exact ⟨r', List.mem_cons_of_mem x hr', hk⟩

theorem update_one_upsert_preserves_keyed
    {k' : String × String × String × String} {doc' : QuoteRow}
    {k : String × String × String × String} {now : Nat}
    (hd : doc'.key = k') (hn : doc'.updated_at = now) {st : List QuoteRow}
    (h : ∃ r ∈ st, r.key = k ∧ r.updated_at = now) :
    ∃ r ∈ update_one_upsert k' doc' st, r.key = k ∧ r.updated_at = now := by
  induction st with
  | nil => rcases h with ⟨r, hr, _⟩; cases hr
  | cons x xs ih =>
    rcases h with ⟨r, hr, hk, hu⟩
    unfold update_one_upsert
    by_cases hx : x.key = k'
    · rw [if_pos hx]
      rcases List.mem_cons.1 hr with hr | hr
      · refine ⟨doc', List.mem_cons_self doc' xs, ?_, hn⟩
        rw [hd, ← hx, ← hr, hk]
      · exact ⟨r, List.mem_cons_of_mem doc' hr, hk, hu⟩
    · rw [if_neg hx]
      rcases List.mem_cons.1 hr with hr | hr
      · exact ⟨r, hr ▸ List.mem_cons_self x _, hk, hu⟩
      · rcases ih ⟨r, hr, hk, hu⟩ with ⟨r', hr', hk', hu'⟩
        exact ⟨r', List.mem_cons_of_mem x hr', hk', hu'⟩

theorem save_kline_fold_preserves_keyed (now : Nat)
    (symbol source period : String) (k : String × String × String × String) :
    ∀ (items : List KlineItem) (st : List QuoteRow),
      (∃ r ∈ st, r.key = k ∧ r.updated_at = now) →
      ∃ r ∈ items.foldl (save_kline_step now symbol source period) st,
        r.key = k ∧ r.updated_at = now := by
  intro items
  induction items with
  | nil => intro st h; exact h
  | cons it rest ih =>
    intro st h
    rw [List.foldl_cons]
    apply ih
    by_cases ht : normalize_trade_date it.time = ""
    · rw [save_kline_step_skip ht]; exact h
    · rw [save_kline_step_upsert ht]
      refine update_one_upsert_preserves_keyed ?_ ?_ h <;> rfl

theorem save_kline_fold_keys_unique (now : Nat)
    (symbol source period : String) :
    ∀ (items : List KlineItem) (st : List QuoteRow), keys_unique st →
      keys_unique (items.foldl (save_kline_step now symbol source period) st) := by
  intro items
  induction items with
  | nil => intro st h; exact h
  | cons it rest ih =>
    intro st h
    rw [List.foldl_cons]
    apply ih
    by_cases ht : normalize_trade_date it.time = ""
    · rw [save_kline_step_skip ht]; exact h
    · rw [save_kline_step_upsert ht]
      refine update_one_upsert_keys_unique ?_ h
      rfl

theorem save_kline_fold_key_superset (now : Nat)
    (symbol source period : String) :
    ∀ (items : List KlineItem) (st : List QuoteRow) (r : QuoteRow), r ∈ st →
      ∃ r' ∈ items.foldl (save_kline_step now symbol source period) st,
        r'.key = r.key := by
  intro items
  induction items with
  | nil => intro st r hr; exact ⟨r, hr, rfl⟩
  | cons it rest ih =>
    intro st r hr
    rw [List.foldl_cons]
    by_cases ht : normalize_trade_date it.time = ""
    · rw [save_kline_step_skip ht]; exact ih st r hr
    · rw [save_kline_step_upsert ht]
      rcases @update_one_upsert_key_superset
          (symbol, normalize_trade_date it.time, source, period)
          (kline_doc now symbol source period it) rfl st r hr with ⟨r1, hr1, hk1⟩
      rcases ih _ r1 hr1 with ⟨r', hr', hk'⟩
      exact ⟨r', hr', hk'.trans hk1⟩

theorem save_kline_contains (now : Nat) (code source period : String) :
    ∀ (items : List KlineItem) (st : List QuoteRow) (item : KlineItem),
      item ∈ items → normalize_trade_date item.time ≠ "" →
      ∃ r ∈ save_kline_to_db true now code items source period st,
        r.key = (py_split_dot_head code,
          normalize_trade_date item.time, source, period) ∧
        r.updated_at = now := by
  intro items
  simp only [save_kline_to_db_true]
  induction items with
  | nil => intro st item hm; cases hm
  | cons it rest ih =>
    intro st item hm hd
    rw [List.foldl_cons]
    rcases List.mem_cons.1 hm with hm | hm
    · subst hm
      apply save_kline_fold_preserves_keyed
      rw [save_kline_step_upsert hd]
      exact ⟨kline_doc now (py_split_dot_head code) source period item,
        doc_mem_update_one_upsert _ _ _, rfl, rfl⟩
    · exact ih _ item hm hd

theorem save_kline_keys_unique (db_ok : Bool) (now : Nat)
    (code source period : String) (items : List KlineItem)
    (st : List QuoteRow) (h : keys_unique st) :
    keys_unique (save_kline_to_db db_ok now code items source period st) := by
  cases db_ok with
  | false => rw [save_kline_to_db_false]; exact h
  | true =>
    rw [save_kline_to_db_true]
    exact save_kline_fold_keys_unique now _ source period items st h

theorem get_kline_store_keys_unique (db_ok : Bool) (now : Nat)
    (code period : String) :
    ∀ (l : List (AdapterCall (List KlineItem))) (store : List QuoteRow),
      keys_unique store →
      keys_unique (get_kline_with_fallback db_ok now code period l store).2 := by
  intro l
  induction l with
  | nil => intro store h; exact h
  | cons a rest ih =>
    intro store h
    unfold get_kline_with_fallback
    cases a.result with
    | exc => exact ih store h
    | ok items =>
      cases hi : items.isEmpty with
      | true => simpa [hi] using ih store h
      | false =>
        simp only [hi, Bool.false_eq_true, if_false]
        exact save_kline_keys_unique db_ok now code a.name period items store h

theorem run_kline_fetches_keys_unique :
    ∀ (calls : List KlineFetchCall) (store : List QuoteRow),
      keys_unique store → keys_unique (run_kline_fetches calls store) := by
  intro calls
  induction calls with
  | nil => intro store h; exact h
  | cons c cs ih =>
    intro store h
    exact ih _ (get_kline_store_keys_unique c.db_ok c.now c.code c.period
      c.adapters store h)

/-- C3 counterexample: a successful kline fetch whose single bar has an empty
`time` field. The fetch succeeds and returns the bar, but `_save_kline_to_db`
skips it (`if not trade_date: continue`), so nothing is upserted: the quote
store stays empty, against the claim that each bar of a successful fetch is
upserted. -/
theorem save_kline_missing_date_counterexample :
    get_kline_with_fallback true 0 "000001.SZ" "day"
      [{ name := "tushare", result := .ok [{ time := "" }] }] []
      = (some ([{ time := "" }], "tushare"), []) := by
  rfl

/-- C3 (amended). On a successful kline fetch the bars are written through to
the quote store before the pair is returned: the returned store is exactly
`_save_kline_to_db` applied to the fetched bars. Every bar whose normalized
trade date is non-empty is upserted keyed exactly by the four-tuple
`(symbol, trade_date, data_source, period)` with `updated_at` set to the
current time (bars with an empty trade date are skipped); the write is an
upsert — existing keys are replaced, never duplicated, and no row is ever
deleted — so after any sequence of fetches the quote store holds at most one
row per four-tuple. -/
theorem write_through_upsert_spec (db_ok : Bool) (now : Nat)
    (code source period : String) (items : List KlineItem)
    (store : List QuoteRow) (l : List (AdapterCall (List KlineItem))) :
    (∀ res name st', get_kline_with_fallback db_ok now code period l store
        = (some (res, name), st') →
      st' = save_kline_to_db db_ok now code res name period store) ∧
    (∀ item ∈ items, normalize_trade_date item.time ≠ "" →
      ∃ r ∈ save_kline_to_db true now code items source period store,
        r.key = (py_split_dot_head code,
          normalize_trade_date item.time, source, period) ∧
        r.updated_at = now) ∧
    (keys_unique store →
      keys_unique (save_kline_to_db db_ok now code items source period store)) ∧
    (∀ r ∈ store, ∃ r' ∈ save_kline_to_db db_ok now code items source period store,
      r'.key = r.key) ∧
    (∀ calls : List KlineFetchCall, keys_unique store →
      keys_unique (run_kline_fetches calls store)) := by
  refine ⟨?_, ?_, ?_, ?_, fun calls h => run_kline_fetches_keys_unique calls store h⟩
  · intro res name st'
    induction l with
    | nil => intro h; cases h
    | cons a rest ih =>
      unfold get_kline_with_fallback
      cases a.result with
      | exc => exact ih
      | ok its =>
        cases hi : its.isEmpty with
        | true => simpa [hi] using ih
        | false =>
          simp only [hi, Bool.false_eq_true, if_false]
          intro h
          rw [Prod.mk.injEq] at h
          obtain ⟨h1, h2⟩ := h
          rw [Option.some.injEq, Prod.mk.injEq] at h1
          obtain ⟨hres, hname⟩ := h1
          rw [← h2, ← hres, ← hname]
  · intro item hm hd
    exact save_kline_contains now code source period items store item hm hd
  · exact save_kline_keys_unique db_ok now code source period items store
  · intro r hr
    cases db_ok with
    | false => rw [save_kline_to_db_false]; exact ⟨r, hr, rfl⟩
    | true =>
      rw [save_kline_to_db_true]
      exact save_kline_fold_key_superset now _ source period items store r hr

/-- Witness for C3 (amended): saving one bar dated 2024-01-02 into an empty
store at time 7 yields a row keyed by the four-tuple with `updated_at = 7`. -/
theorem write_through_upsert_spec_witness :
    ∃ r ∈ save_kline_to_db true 7 "000001.SZ"
        [{ time := "2024-01-02" }] "tushare" "day" [],
      r.key = (py_split_dot_head "000001.SZ",
        normalize_trade_date "2024-01-02", "tushare", "day") ∧
      r.updated_at = 7 :=
  (write_through_upsert_spec true 7 "000001.SZ" "tushare" "day"
    [{ time := "2024-01-02" }] [] []).2.1 { time := "2024-01-02" }
    (by decide) (by decide)

/-- C10. The value returned by `get_kline_with_fallback` is independent of
whether the write-through persistence succeeds: for the same adapter
responses the returned `(items, adapter_name)` pair is the same whatever the
state of the quote store and whether the save succeeds or raises internally,
and a failing save leaves the store untouched instead of propagating the
error to the caller. -/
theorem get_kline_value_independent_of_persistence :
    (∀ (db_ok db_ok' : Bool) (now now' : Nat) (code period : String)
        (l : List (AdapterCall (List KlineItem))) (store store' : List QuoteRow),
      (get_kline_with_fallback db_ok now code period l store).1
        = (get_kline_with_fallback db_ok' now' code period l store').1) ∧
    (∀ (now : Nat) (code : String) (items : List KlineItem)
        (source period : String) (store : List QuoteRow),
      save_kline_to_db false now code items source period store = store) := by
  constructor
  · intro db_ok db_ok' now now' code period l store store'
    rw [get_kline_fst, get_kline_fst]
  · intro now code items source period store
    rfl

/-- C4 counterexample: the empty symbol list has size at most 10 but is
rejected with a 400 response (`if not stock_symbols: raise ValueError`),
against the claim that every list of size at most 10 is accepted. -/
theorem submit_batch_empty_rejected_counterexample :
    submit_batch_analysis (fun s => s ++ "-task") [] = .error 400 ∧
    ([] : List String).length ≤ 10 := by
  constructor
  · rfl
  · decide

/-- C4 (amended). A symbol list of size 11 or more is rejected with a 4xx
response and no task is created or spawned, and so is the empty list; a
non-empty list of size at most 10 is accepted, creates exactly one task per
symbol, and the background runner spawns all of them as concurrent tasks
before the single collective `gather` — it never serializes them. -/
theorem submit_batch_analysis_spec (create_task : String → String)
    (stock_symbols : List String) :
    (stock_symbols.length ≥ 11 →
      submit_batch_analysis create_task stock_symbols = .error 400) ∧
    (stock_symbols = [] →
      submit_batch_analysis create_task stock_symbols = .error 400) ∧
    (stock_symbols ≠ [] → stock_symbols.length ≤ 10 →
      submit_batch_analysis create_task stock_symbols
        = .ok (stock_symbols.map create_task,
            (stock_symbols.map create_task).map BatchEvent.spawn
              ++ [BatchEvent.gather_all]) ∧
      (stock_symbols.map create_task).length = stock_symbols.length) := by
  refine ⟨?_, ?_, ?_⟩
  · intro h
    unfold submit_batch_analysis
    by_cases he : stock_symbols.isEmpty
    · rw [if_pos he]
    · rw [if_neg he, if_pos (by simp only [MAX_BATCH_SIZE]; omega)]
  · intro h
    subst h
    rfl
  · intro hne hle
    unfold submit_batch_analysis
    rw [if_neg (by simpa [List.isEmpty_iff] using hne),
      if_neg (by simp [MAX_BATCH_SIZE]; omega)]
    exact ⟨rfl, by rw [List.length_map]⟩

/-- Witness for C4 at a concrete two-symbol batch: accepted, one task per
symbol, both spawned before the collective gather. -/
theorem submit_batch_analysis_spec_witness :
    submit_batch_analysis (fun s => s ++ "-task") ["000001", "600519"]
      = .ok (["000001-task", "600519-task"],
          [BatchEvent.spawn "000001-task", BatchEvent.spawn "600519-task",
            BatchEvent.gather_all]) :=
  ((submit_batch_analysis_spec (fun s => s ++ "-task")
    ["000001", "600519"]).2.2 (by decide) (by decide)).1

/-- C5. The structured-summary node never throws (it is a total function of
the LLM outcome): it always returns a delta whose single key is
`structured_summary`, and when the LLM text fails to parse as JSON the delta
carries the deterministic default with `model_confidence = 50`,
`final_signal = "Hold"` and risk level `"Medium"`. -/
theorem summary_node_spec (parse_json : String → Option SJson)
    (llm_response : Except Unit String) :
    (∃ d, summary_node parse_json llm_response = [("structured_summary", d)]) ∧
    (∀ raw, parse_json (clean_content raw) = none →
      summary_node parse_json (.ok raw)
        = [("structured_summary", parse_fail_default)]) ∧
    obj_get parse_fail_default "model_confidence" = some (.num 50) ∧
    obj_get parse_fail_default "final_signal" = some (.str "Hold") ∧
    (obj_get parse_fail_default "risk_assessment").bind
      (fun r => obj_get r "level") = some (.str "Medium") := by
  refine ⟨?_, ?_, by rfl, by rfl, by rfl⟩
  · cases llm_response with
    | error e => exact ⟨generic_fail_default, rfl⟩
    | ok raw =>
      cases h : parse_json (clean_content raw) with
      | none => exact ⟨parse_fail_default, by simp [summary_node, h]⟩
      | some d => exact ⟨d, by simp [summary_node, h]⟩
  · intro raw h
    show (match parse_json (clean_content raw) with
      | some structured_data => [("structured_summary", structured_data)]
      | none => [("structured_summary", parse_fail_default)])
      = [("structured_summary", parse_fail_default)]
    rw [h]

/-- Witness for C5: a parser that always fails on the concrete response
"not json" produces the deterministic default delta. -/
theorem summary_node_spec_witness :
    summary_node (fun _ => none) (.ok "not json")
      = [("structured_summary", parse_fail_default)] :=
  (summary_node_spec (fun _ => none) (.ok "not json")).2.1 "not json" rfl

theorem dict_get_append_some {xs ys : List (String × ℚ)} {k : String} {v : ℚ}
    (h : dict_get ys k = some v) : dict_get (xs ++ ys) k = some v := by
  induction xs with
  | nil => exact h
  | cons kv rest ih =>
    rw [List.cons_append]
    unfold dict_get
    rw [ih]

theorem dict_get_append_none {xs ys : List (String × ℚ)} {k : String}
    (h : dict_get ys k = none) : dict_get (xs ++ ys) k = dict_get xs k := by
  induction xs with
  | nil => exact h
  | cons kv rest ih =>
    rw [List.cons_append]
    unfold dict_get
    rw [ih]

theorem dict_get_not_mem {ys : List (String × ℚ)} {k : String}
    (h : k ∉ ys.map Prod.fst) : dict_get ys k = none := by
  induction ys with
  | nil => rfl
  | cons kv rest ih =>
    rw [List.map_cons] at h
    have hne : ¬ kv.1 = k :=
      fun he => h (by rw [← he]; exact List.mem_cons_self _ _)
    unfold dict_get
    rw [ih (fun hm => h (List.mem_cons_of_mem _ hm))]
    rw [if_neg hne]

theorem dict_get_mem_nodup {ys : List (String × ℚ)} {k : String} {v : ℚ}
    (hnd : (ys.map Prod.fst).Nodup) (hm : (k, v) ∈ ys) :
    dict_get ys k = some v := by
  induction ys with
  | nil => cases hm
  | cons kv rest ih =>
    rw [List.map_cons, List.nodup_cons] at hnd
    unfold dict_get
    rcases List.mem_cons.1 hm with hm | hm
    · have hk : k ∉ rest.map Prod.fst := by
        rw [← hm] at hnd; exact hnd.1
      rw [dict_get_not_mem hk, if_pos (by rw [← hm])]
      rw [← hm]
    · rw [ih hnd.2 hm]

theorem analyst_assignments_keys {n : Nat} :
    ∀ (start : Nat) (l : List AgentConfig) (k : String),
      k ∈ (analyst_assignments n start l).map Prod.fst →
      k ∈ l.map display_name := by
  intro start l
  induction l generalizing start with
  | nil => intro k hk; cases hk
  | cons a rest ih =>
    intro k hk
    unfold analyst_assignments at hk
    rw [List.map_append, List.mem_append] at hk
    rcases hk with hk | hk
    · rw [List.map_cons]
      by_cases hv : a.slug = "" ∨ a.name = ""
      · rw [if_pos hv] at hk; cases hk
      · rw [if_neg hv] at hk
        simp only [List.map_cons, List.map_nil, List.mem_singleton] at hk
        exact hk ▸ List.mem_cons_self _ _
    · exact List.mem_cons_of_mem _ (ih (start + 1) k hk)

theorem analyst_assignments_cons_valid {n start : Nat} {a : AgentConfig}
    {rest : List AgentConfig} (h1 : a.slug ≠ "") (h2 : a.name ≠ "") :
    analyst_assignments n start (a :: rest)
      = (display_name a, analyst_progress n start)
        :: analyst_assignments n (start + 1) rest := by
  conv_lhs => rw [analyst_assignments]
  rw [if_neg (by tauto), List.singleton_append]

theorem analyst_assignments_lookup (n : Nat) :
    ∀ (l : List AgentConfig) (start : Nat),
      (∀ a ∈ l, a.slug ≠ "" ∧ a.name ≠ "") →
      (l.map display_name).Nodup →
      ∀ i (h : i < l.length),
        dict_get (analyst_assignments n start l)
          (display_name (l.get ⟨i, h⟩))
          = some (analyst_progress n (start + i)) := by
  intro l
  induction l with
  | nil => intro start _ _ i h; cases h
  | cons a rest ih =>
    intro start hvalid hnd i h
    have ha := hvalid a (List.mem_cons_self a rest)
    rw [analyst_assignments_cons_valid ha.1 ha.2]
    rw [List.map_cons, List.nodup_cons] at hnd
    cases i with
    | zero =>
      show dict_get _ (display_name a) = some (analyst_progress n (start + 0))
      unfold dict_get
      have hout : display_name a ∉
          (analyst_assignments n (start + 1) rest).map Prod.fst :=
        fun hm => hnd.1 (analyst_assignments_keys (start + 1) rest _ hm)
      rw [dict_get_not_mem hout, if_pos rfl, Nat.add_zero]
    | succ j =>
      show dict_get _ (display_name (rest.get ⟨j, Nat.lt_of_succ_lt_succ h⟩))
        = some (analyst_progress n (start + (j + 1)))
      unfold dict_get
      rw [ih (start + 1) (fun b hb => hvalid b (List.mem_cons_of_mem a hb))
        hnd.2 j (Nat.lt_of_succ_lt_succ h)]
      have harg : start + 1 + j = start + (j + 1) := by omega
      rw [harg]

theorem round_half_even_intCast (m : ℤ) : round_half_even (m : ℚ) = m := by
  unfold round_half_even
  rw [Int.fract_intCast, if_pos (by norm_num)]
  exact Int.floor_intCast m

theorem py_round1_intCast (m : ℤ) : py_round1 (m : ℚ) = m := by
  unfold py_round1
  have h10 : (10 : ℚ) * (m : ℚ) = ((10 * m : ℤ) : ℚ) := by push_cast; ring
  rw [h10, round_half_even_intCast]
  push_cast
  ring_nf

theorem analyst_progress_last (n : Nat) (hn : 0 < n) :
    analyst_progress n (n - 1) = 50 := by
  unfold analyst_progress
  have hne : (n : ℚ) ≠ 0 := Nat.cast_ne_zero.2 hn.ne'
  have hcast : ((n - 1 : Nat) : ℚ) + 1 = (n : ℚ) := by
    have h1 : (1 : Nat) ≤ n := hn
    push_cast [Nat.cast_sub h1]
    ring
  rw [hcast, mul_comm, div_mul_cancel₀ _ hne]
  norm_num
  have h50 : (50 : ℚ) = ((50 : ℤ) : ℚ) := by norm_num
  rw [h50, py_round1_intCast]

/-- C6. For a non-empty list of `n` enabled analysts (all with non-empty slug
and name, pairwise-distinct display names), the progress map assigns the
0-based `i`-th analyst the percentage `10 + (i + 1) * 40 / n` rounded to one
decimal; the last analyst's percentage is exactly 50; the map carries the
nine fixed anchors of the non-analyst stages; and when no analyst list is
given (`None` or the empty list) all configured analysts are used instead. -/
theorem build_progress_map_spec (selected : Option (List String))
    (lookup : String → Option AgentConfig) (all_agents : List AgentConfig)
    (hvalid : ∀ a ∈ selected_agents selected lookup all_agents,
      a.slug ≠ "" ∧ a.name ≠ "")
    (hnodup :
      ((selected_agents selected lookup all_agents).map display_name).Nodup) :
    (∀ i (h : i < (selected_agents selected lookup all_agents).length),
      (∀ kv ∈ fixed_progress_anchors,
        display_name ((selected_agents selected lookup all_agents).get ⟨i, h⟩)
          ≠ kv.1) →
      dict_get (build_progress_map selected lookup all_agents)
        (display_name ((selected_agents selected lookup all_agents).get ⟨i, h⟩))
        = some (analyst_progress
            (selected_agents selected lookup all_agents).length i)) ∧
    (∀ n : Nat, 0 < n → analyst_progress n (n - 1) = 50) ∧
    (∀ kv ∈ fixed_progress_anchors,
      dict_get (build_progress_map selected lookup all_agents) kv.1
        = some kv.2) ∧
    selected_agents none lookup all_agents = all_agents ∧
    selected_agents (some []) lookup all_agents = all_agents := by
  refine ⟨?_, fun n hn => analyst_progress_last n hn, ?_, rfl, rfl⟩
  · intro i h hdisj
    unfold build_progress_map
    have hpos : 0 < (selected_agents selected lookup all_agents).length :=
      Nat.lt_of_le_of_lt (Nat.zero_le i) h
    rw [if_pos hpos]
    have hanch : dict_get fixed_progress_anchors
        (display_name ((selected_agents selected lookup all_agents).get ⟨i, h⟩))
        = none := by
      apply dict_get_not_mem
      intro hm
      rcases List.mem_map.1 hm with ⟨kv, hkv, hke⟩
      exact hdisj kv hkv hke.symm
    rw [dict_get_append_none hanch]
    have hl := analyst_assignments_lookup
      (selected_agents selected lookup all_agents).length
      (selected_agents selected lookup all_agents) 0 hvalid hnodup i h
    simpa using hl
  · intro kv hkv
    unfold build_progress_map
    apply dict_get_append_some
    exact dict_get_mem_nodup (by decide) hkv

/-- Witness for C6 at two concrete enabled analysts: the second (0-based
index 1) of the two is assigned `analyst_progress 2 1`. -/
theorem build_progress_map_spec_witness :
    dict_get
      (build_progress_map (some ["market-analyst", "news-analyst"])
        (fun s =>
          if s = "market-analyst"
          then some { slug := "market-analyst", name := "市场技术分析师" }
          else if s = "news-analyst"
          then some { slug := "news-analyst", name := "新闻分析师" }
          else none)
        [])
      (display_name
        ((selected_agents (some ["market-analyst", "news-analyst"])
          (fun s =>
            if s = "market-analyst"
            then some { slug := "market-analyst", name := "市场技术分析师" }
            else if s = "news-analyst"
            then some { slug := "news-analyst", name := "新闻分析师" }
            else none)
          []).get ⟨1, by decide⟩))
      = some (analyst_progress 2 1) :=
  (build_progress_map_spec (some ["market-analyst", "news-analyst"])
    (fun s =>
      if s = "market-analyst"
      then some { slug := "market-analyst", name := "市场技术分析师" }
      else if s = "news-analyst"
      then some { slug := "news-analyst", name := "新闻分析师" }
      else none)
    [] (by decide) (by decide)).1 1 (by decide) (by decide)

theorem bull_update_report (state : InvestmentDebateState) (c : String) :
    (bull_state_after state c).bull_report_content
      = if str_contains state.bull_report_content
          (section_title state.current_round_index)
        then state.bull_report_content
        else state.bull_report_content ++ "\n\n"
          ++ section_title state.current_round_index ++ "\n\n"
          ++ clean_bull_content c := rfl

theorem bull_update_history (state : InvestmentDebateState) (c : String) :
    (bull_state_after state c).history
      = if str_contains state.bull_history
          (round_marker state.current_round_index)
        then state.history
        else state.history ++ "\n"
          ++ (round_marker state.current_round_index ++ "\n"
            ++ clean_bull_content c) := rfl

theorem bull_update_bull_history (state : InvestmentDebateState) (c : String) :
    (bull_state_after state c).bull_history
      = if str_contains state.bull_history
          (round_marker state.current_round_index)
        then state.bull_history
        else state.bull_history ++ "\n"
          ++ (round_marker state.current_round_index ++ "\n"
            ++ clean_bull_content c) := rfl

theorem bull_update_index (state : InvestmentDebateState) (c : String) :
    (bull_state_after state c).current_round_index
      = (state.count + 1) / 2 := rfl

/-- C7. The bull node's appends are guarded and idempotent: if the round's
section title is already present in the accumulated report the append is
skipped, and executing the node twice for the same round (the retry
situation, where the updated `current_round_index` equals the incoming one)
leaves the accumulated report, the flat history and the bull history exactly
as after the first execution — no section is appended twice. -/
theorem bull_node_append_idempotent (state : InvestmentDebateState)
    (c1 c2 : String)
    (hidx : (state.count + 1) / 2 = state.current_round_index) :
    (str_contains state.bull_report_content
        (section_title state.current_round_index) = true →
      (bull_state_after state c1).bull_report_content
        = state.bull_report_content) ∧
    (bull_state_after (bull_state_after state c1) c2).bull_report_content
      = (bull_state_after state c1).bull_report_content ∧
    (bull_state_after (bull_state_after state c1) c2).history
      = (bull_state_after state c1).history ∧
    (bull_state_after (bull_state_after state c1) c2).bull_history
      = (bull_state_after state c1).bull_history := by
  set s1 := bull_state_after state c1 with hs1
  have hidx1 : s1.current_round_index = state.current_round_index :=
    (bull_update_index state c1).trans hidx
  have hrep : str_contains s1.bull_report_content
      (section_title state.current_round_index) = true := by
    rw [show s1.bull_report_content = _ from bull_update_report state c1]
    by_cases hg : str_contains state.bull_report_content
        (section_title state.current_round_index) = true
    · rw [if_pos hg]; exact hg
    · rw [if_neg hg]
      exact str_contains_append_left
        (str_contains_append_left (str_contains_append_right str_contains_self))
  have hhist : str_contains s1.bull_history
      (round_marker state.current_round_index) = true := by
    rw [show s1.bull_history = _ from bull_update_bull_history state c1]
    by_cases hg : str_contains state.bull_history
        (round_marker state.current_round_index) = true
    · rw [if_pos hg]; exact hg
    · rw [if_neg hg]
      exact str_contains_append_right
        (str_contains_append_left (str_contains_append_left str_contains_self))
  refine ⟨?_, ?_, ?_, ?_⟩
  · intro hg
    rw [bull_update_report, if_pos hg]
  · rw [bull_update_report s1 c2, hidx1, if_pos hrep]
  · rw [bull_update_history s1 c2, hidx1, if_pos hhist]
  · rw [bull_update_bull_history s1 c2, hidx1, if_pos hhist]

/-- Witness for C7: running the round-0 node twice on a fresh debate state
leaves the accumulated bull report as after the first run. -/
theorem bull_node_append_idempotent_witness :
    (bull_state_after (bull_state_after { count := 0 } "看涨观点A")
        "看涨观点B").bull_report_content
      = (bull_state_after { count := 0 } "看涨观点A").bull_report_content :=
  (bull_node_append_idempotent { count := 0 } "看涨观点A" "看涨观点B"
    (by decide)).2.1

/-- C8 counterexample: four restart requests for the same server at times
0, 1, 2, 3, each with a successful refresh, are all granted — after three
recorded restarts the fourth request arrives 1 second after the last restart
and is still performed, because every successful reconnect reset the budget.
This contradicts the claim that once 3 restarts have been recorded a further
request within 300 seconds of the last restart is refused. -/
theorem restart_budget_counterexample :
    (restart_server 0 "srv" true initial_restart_state).1 = true ∧
    (restart_server 1 "srv" true
      (restart_server 0 "srv" true initial_restart_state).2).1 = true ∧
    (restart_server 2 "srv" true
      (restart_server 1 "srv" true
        (restart_server 0 "srv" true initial_restart_state).2).2).1 = true ∧
    (3 : ℚ) -
      ((restart_server 2 "srv" true
        (restart_server 1 "srv" true
          (restart_server 0 "srv" true
            initial_restart_state).2).2).2).last_restart_time "srv"
      < RESTART_WINDOW_SECONDS ∧
    (restart_server 3 "srv" true
      (restart_server 2 "srv" true
        (restart_server 1 "srv" true
          (restart_server 0 "srv" true
            initial_restart_state).2).2).2).1 = true := by
  refine ⟨rfl, rfl, rfl, ?_, rfl⟩
  show (3 : ℚ) - 2 < RESTART_WINDOW_SECONDS
  rw [RESTART_WINDOW_SECONDS]
  norm_num

theorem restart_server_refused (now : ℚ) (server_name : String)
    (refresh_ok : Bool) (st : RestartState)
    (h1 : st.restart_counts server_name ≥ MAX_RESTART_ATTEMPTS)
    (h2 : now - st.last_restart_time server_name < RESTART_WINDOW_SECONDS) :
    restart_server now server_name refresh_ok st = (false, st) := by
  have hcr : can_restart_server now server_name st = (false, st) := by
    unfold can_restart_server
    rw [if_pos h1, if_pos h2]
  simp [restart_server, hcr]

/-- C8 (amended). The restart budget counts restarts since the last
successful reconnect: once `MAX_RESTART_ATTEMPTS` (3) restarts have been
recorded without an intervening success, a further restart request within
`RESTART_WINDOW_SECONDS` (300 s) of the last restart is refused with the
loader state unchanged — and any number of requests inside that window are
all refused; once the window has elapsed the budget resets (the attempt
proceeds with the count starting over); below the budget a request always
proceeds, stamping the restart time, and a successful refresh resets the
count to 0 while a failed one increments it. -/
theorem restart_budget_spec (now : ℚ) (server_name : String)
    (refresh_ok : Bool) (st : RestartState) :
    (st.restart_counts server_name ≥ MAX_RESTART_ATTEMPTS →
      now - st.last_restart_time server_name < RESTART_WINDOW_SECONDS →
      restart_server now server_name refresh_ok st = (false, st)) ∧
    (st.restart_counts server_name ≥ MAX_RESTART_ATTEMPTS →
      RESTART_WINDOW_SECONDS ≤ now - st.last_restart_time server_name →
      (restart_server now server_name refresh_ok st).1 = refresh_ok ∧
      ((restart_server now server_name refresh_ok st).2).restart_counts
          server_name = (if refresh_ok then 0 else 1) ∧
      ((restart_server now server_name refresh_ok st).2).last_restart_time
          server_name = now) ∧
    (st.restart_counts server_name < MAX_RESTART_ATTEMPTS →
      (restart_server now server_name refresh_ok st).1 = refresh_ok ∧
      ((restart_server now server_name refresh_ok st).2).restart_counts
          server_name
        = (if refresh_ok then 0 else st.restart_counts server_name + 1) ∧
      ((restart_server now server_name refresh_ok st).2).last_restart_time
          server_name = now) ∧
    (∀ reqs : List (ℚ × Bool),
      st.restart_counts server_name = MAX_RESTART_ATTEMPTS →
      (∀ tb ∈ reqs,
        tb.1 - st.last_restart_time server_name < RESTART_WINDOW_SECONDS) →
      process_restart_requests server_name reqs st
        = (reqs.map (fun _ => false), st)) := by
  refine ⟨restart_server_refused now server_name refresh_ok st, ?_, ?_, ?_⟩
  · intro h1 h2
    have hcr : can_restart_server now server_name st
        = (true, reset_count server_name st) := by
      unfold can_restart_server
      rw [if_pos h1, if_neg (not_lt.2 h2)]
    cases refresh_ok with
    | true => simp [restart_server, hcr, record_restart, reset_count]
    | false => simp [restart_server, hcr, record_restart, reset_count]
  · intro h1
    have hcr : can_restart_server now server_name st = (true, st) := by
      unfold can_restart_server
      rw [if_neg (not_le.2 h1)]
    cases refresh_ok with
    | true => simp [restart_server, hcr, record_restart, reset_count]
    | false => simp [restart_server, hcr, record_restart, reset_count]
  · intro reqs hc hall
    induction reqs with
    | nil => rfl
    | cons tb rest ih =>
      obtain ⟨t, ok⟩ := tb
      have hr : restart_server t server_name ok st = (false, st) :=
        restart_server_refused t server_name ok st (le_of_eq hc.symm)
          (hall (t, ok) (List.mem_cons_self _ _))
      have ih' := ih fun tb2 hm => hall tb2 (List.mem_cons_of_mem _ hm)
      simp [process_restart_requests, hr, ih']

/-- Witness for C8 (amended): with 3 restarts on record and the last restart
100 s ago, a request 100 s later (inside the 300 s window) is refused and
the state is unchanged. -/
theorem restart_budget_spec_witness :
    restart_server 200 "srv" true
      { restart_counts := fun _ => 3, last_restart_time := fun _ => 100 }
      = (false,
          { restart_counts := fun _ => 3, last_restart_time := fun _ => 100 }) :=
  (restart_budget_spec 200 "srv" true
    { restart_counts := fun _ => 3, last_restart_time := fun _ => 100 }).1
    (by decide)
    (by rw [RESTART_WINDOW_SECONDS]; norm_num)

/-- C9 counterexample: `_safe_float` applied to NaN returns NaN, not null —
`float(nan)` is `nan` and no branch maps it to `None` — against the claim
that NaN is converted to null. -/
theorem safe_float_nan_counterexample :
    safe_float (fun _ => none) (.float_v .nan) = some PyFloat.nan ∧
    some PyFloat.nan ≠ (none : Option PyFloat) := by
  exact ⟨rfl, by simp⟩

/-- C9 (amended). `_safe_float` never raises and returns null for `None`,
the empty string, the string "None", and any value whose conversion raises
(`ValueError` on unparsable strings, `TypeError` on non-numbers); a NaN
input is passed through as NaN, not coerced to null. An exception during a
single-symbol fetch only skips that symbol — removing it from the batch
leaves the collected rows of every other symbol unchanged (provided the
exception did not arrive past the 30 s timeout, where the loop breaks for
every remaining symbol alike). -/
theorem safe_float_spec (parse_float : String → Option PyFloat)
    (trade_date : String) :
    safe_float parse_float .none_v = none ∧
    safe_float parse_float (.str_v "") = none ∧
    safe_float parse_float (.str_v "None") = none ∧
    (∀ s, parse_float s = none → safe_float parse_float (.str_v s) = none) ∧
    safe_float parse_float (.float_v .nan) = some .nan ∧
    safe_float parse_float .other_v = none ∧
    (∀ (xs ys : List StockFetch) (ex : StockFetch), ex.fetch = .exc →
      ex.elapsed ≤ 30 →
      collect_basic_data parse_float trade_date (xs ++ ex :: ys)
        = collect_basic_data parse_float trade_date (xs ++ ys)) := by
  refine ⟨rfl, by simp [safe_float], by simp [safe_float], ?_, rfl, rfl, ?_⟩
  · intro s hp
    show (if s = "" ∨ s = "None" then none else parse_float s) = none
    by_cases h : s = "" ∨ s = "None"
    · rw [if_pos h]
    · rw [if_neg h]; exact hp
  · intro xs ys ex hexc h30
    have h30' : ¬ ex.elapsed > 30 := not_lt.2 h30
    induction xs with
    | nil =>
      by_cases hs : ex.symbol = ""
      · simp [collect_basic_data, h30', hs]
      · simp [collect_basic_data, h30', hs, hexc]
    | cons s rest ih =>
      rw [List.cons_append]
      by_cases h1 : s.elapsed > 30
      · simp [collect_basic_data, h1]
      · by_cases h2 : s.symbol = ""
        · simp [collect_basic_data, h1, h2, ih]
        · cases hf : s.fetch with
          | exc => simp [collect_basic_data, h1, h2, hf, ih]
          | ok info? =>
            cases info? with
            | none => simp [collect_basic_data, h1, h2, hf, ih]
            | some info =>
              by_cases hi : info.isEmpty
                <;> simp [collect_basic_data, h1, h2, hf, hi, ih]

/-- Witness for C9 (amended): in a two-stock batch whose second stock's info
fetch raises (1 s into the run), the collected rows equal those of the batch
without the failing stock. -/
theorem safe_float_spec_witness :
    collect_basic_data (fun _ => none) "20240102"
      ([{ symbol := "000001", name := "平安银行", ts_code := "000001.SZ",
          fetch := .ok (some [("最新", .float_v (.finite 10))]) }]
        ++ { elapsed := 1, symbol := "000002", fetch := .exc } :: [])
      = collect_basic_data (fun _ => none) "20240102"
          ([{ symbol := "000001", name := "平安银行", ts_code := "000001.SZ",
              fetch := .ok (some [("最新", .float_v (.finite 10))]) }] ++ []) :=
  (safe_float_spec (fun _ => none) "20240102").2.2.2.2.2.2
    [{ symbol := "000001", name := "平安银行", ts_code := "000001.SZ",
        fetch := .ok (some [("最新", .float_v (.finite 10))]) }]
    [] { elapsed := 1, symbol := "000002", fetch := .exc } rfl (by norm_num)

end Spec2Proof
